import Mathlib

set_option maxRecDepth 100000

/-!
Verification development for the Truth Report podcast feed builder
(`generate_feed.py`).  The script is a linear batch transform: load a
JSON array of episode records, sort them by date string descending,
drop records whose audio file is missing on disk, build an RSS 2.0 XML
tree, serialize it, and write `feed.xml`.

The shallow embedding below translates each Python function into an
executable Lean definition.  Python dictionaries holding episode
records become a structure with optional fields (a missing key is
`none`); dictionary access `ep["k"]` becomes a lookup in `Except`
(raising `Err.keyError` like a Python `KeyError`); the filesystem is
an explicit association list from paths to byte sizes; the current
UTC time is an explicit `now : String` parameter; console output is
collected into lists of printed lines.
-/

/-- Error outcomes of the Python script: a `KeyError` on a missing
dictionary field, or a `FileNotFoundError` from `os.path.getsize`. -/
inductive Err where
  | keyError (fieldName : String)
  | fileNotFound (path : String)
deriving DecidableEq, Repr

/-- One episode record from `episodes.json`.  Each field models the
corresponding JSON key; `none` means the key is absent from the
record.  The program reads exactly these five keys. -/
structure Episode where
  filename : Option String
  title : Option String
  description : Option String
  duration : Option String
  date : Option String
deriving DecidableEq, Repr

/-- The filesystem visible to the script: an association list from
file paths to byte sizes.  A path is present iff the file exists. -/
structure FS where
  files : List (String × Nat)
deriving DecidableEq, Repr

/-- `os.path.exists` on the modelled filesystem. -/
def FS.pathExists (fs : FS) (p : String) : Bool :=
  (fs.files.lookup p).isSome

/-- `os.path.getsize`: the byte size of a file, `none` when the file
is absent (Python would raise `FileNotFoundError`). -/
def FS.getsize (fs : FS) (p : String) : Option Nat :=
  fs.files.lookup p

/-- The static `PODCAST` configuration dictionary. -/
structure PodcastConfig where
  title : String
  description : String
  author : String
  email : String
  website : String
  language : String
  category : String
  subcategory : String
  image : String
  base_url : String
  explicit : String
deriving Repr

/-- The `PODCAST` constant from the script. -/
def PODCAST : PodcastConfig :=
  { title := "The Truth Report"
  , description := "AI-produced investigative journalism exposing underreported stories. Hosted by Alex Truth and Maya Clarity. Researched by Aurora (Gemini), scripted and produced by Claudia (Claude). A JackKnifeAI production."
  , author := "JackKnifeAI"
  , email := "jackknifeai@gmail.com"
  , website := "https://jackknifeai.github.io/truth-report-podcast"
  , language := "en"
  , category := "News"
  , subcategory := "News Commentary"
  , image := "https://jackknifeai.github.io/truth-report-podcast/cover.png"
  , base_url := "https://jackknifeai.github.io/truth-report-podcast"
  , explicit := "no" }

/-- `EPISODES_DIR` constant. -/
def EPISODES_DIR : String := "episodes"

/-- `os.path.join` for the two-argument POSIX case used by the
script: an absolute second component replaces the first, otherwise
the components are joined with a slash. -/
def pathJoin (a b : String) : String :=
  match b.data with
  | '/' :: _ => b
  | _ => a ++ "/" ++ b

/-- `load_episodes`: read the metadata file if it exists, else return
the empty list.  The parameter models the content of `episodes.json`
(`none` when the file is absent, `some eps` its parsed JSON array). -/
def load_episodes (meta : Option (List Episode)) : List Episode :=
  match meta with
  | some eps => eps
  | none => []

/-! ### MD5 (`hashlib.md5(...).hexdigest()`)

Executable translation of the MD5 digest used by `generate_guid`,
over lists of bytes (`Nat` values below 256), with all 32-bit
arithmetic done explicitly modulo `2 ^ 32`. -/

/-- Truncate to a 32-bit word. -/
def w32 (n : Nat) : Nat := n % 4294967296

/-- 32-bit modular addition. -/
def wadd (a b : Nat) : Nat := (a + b) % 4294967296

/-- 32-bit left rotation. -/
def rotl (x n : Nat) : Nat :=
  ((x <<< n) ||| (x >>> (32 - n))) % 4294967296

/-- The 64 MD5 sine-derived round constants. -/
def md5K : List Nat :=
  [ 0xd76aa478, 0xe8c7b756, 0x242070db, 0xc1bdceee
  , 0xf57c0faf, 0x4787c62a, 0xa8304613, 0xfd469501
  , 0x698098d8, 0x8b44f7af, 0xffff5bb1, 0x895cd7be
  , 0x6b901122, 0xfd987193, 0xa679438e, 0x49b40821
  , 0xf61e2562, 0xc040b340, 0x265e5a51, 0xe9b6c7aa
  , 0xd62f105d, 0x02441453, 0xd8a1e681, 0xe7d3fbc8
  , 0x21e1cde6, 0xc33707d6, 0xf4d50d87, 0x455a14ed
  , 0xa9e3e905, 0xfcefa3f8, 0x676f02d9, 0x8d2a4c8a
  , 0xfffa3942, 0x8771f681, 0x6d9d6122, 0xfde5380c
  , 0xa4beea44, 0x4bdecfa9, 0xf6bb4b60, 0xbebfbc70
  , 0x289b7ec6, 0xeaa127fa, 0xd4ef3085, 0x04881d05
  , 0xd9d4d039, 0xe6db99e5, 0x1fa27cf8, 0xc4ac5665
  , 0xf4292244, 0x432aff97, 0xab9423a7, 0xfc93a039
  , 0x655b59c3, 0x8f0ccc92, 0xffeff47d, 0x85845dd1
  , 0x6fa87e4f, 0xfe2ce6e0, 0xa3014314, 0x4e0811a1
  , 0xf7537e82, 0xbd3af235, 0x2ad7d2bb, 0xeb86d391 ]

/-- The 64 MD5 per-round left-rotation amounts. -/
def md5S : List Nat :=
  [ 7, 12, 17, 22, 7, 12, 17, 22, 7, 12, 17, 22, 7, 12, 17, 22
  , 5, 9, 14, 20, 5, 9, 14, 20, 5, 9, 14, 20, 5, 9, 14, 20
  , 4, 11, 16, 23, 4, 11, 16, 23, 4, 11, 16, 23, 4, 11, 16, 23
  , 6, 10, 15, 21, 6, 10, 15, 21, 6, 10, 15, 21, 6, 10, 15, 21 ]

/-- The MD5 nonlinear round function for step `i`. -/
def md5F (i b c d : Nat) : Nat :=
  if i < 16 then (b &&& c) ||| ((b ^^^ 0xffffffff) &&& d)
  else if i < 32 then (d &&& b) ||| ((d ^^^ 0xffffffff) &&& c)
  else if i < 48 then b ^^^ c ^^^ d
  else c ^^^ (b ||| (d ^^^ 0xffffffff))

/-- The MD5 message-word index for step `i`. -/
def md5G (i : Nat) : Nat :=
  if i < 16 then i
  else if i < 32 then (5 * i + 1) % 16
  else if i < 48 then (3 * i + 5) % 16
  else (7 * i) % 16

/-- One of the 64 MD5 steps on the running state `(a, b, c, d)`,
using the 16 message words `M` of the current block. -/
def md5Step (M : List Nat) (st : Nat × Nat × Nat × Nat) (i : Nat) :
    Nat × Nat × Nat × Nat :=
  match st with
  | (a, b, c, d) =>
    let f := md5F i b c d
    let tmp := wadd (wadd (wadd a f) (md5K.getD i 0)) (M.getD (md5G i) 0)
    (d, wadd b (rotl tmp (md5S.getD i 0)), b, c)

/-- Process one 64-byte block (given as 16 little-endian words). -/
def md5Block (st : Nat × Nat × Nat × Nat) (M : List Nat) :
    Nat × Nat × Nat × Nat :=
  match st, (List.range 64).foldl (md5Step M) st with
  | (a0, b0, c0, d0), (a, b, c, d) =>
    (wadd a0 a, wadd b0 b, wadd c0 c, wadd d0 d)

/-- Group a byte list into little-endian 32-bit words (the padded
message length is always a multiple of 4). -/
def md5Words : List Nat → List Nat
  | b0 :: b1 :: b2 :: b3 :: rest =>
      (b0 + b1 * 256 + b2 * 65536 + b3 * 16777216) :: md5Words rest
  | _ => []

/-- MD5 padding: a `0x80` byte, zeros to 56 mod 64, then the original
bit length as a 64-bit little-endian quantity. -/
def md5Pad (msg : List Nat) : List Nat :=
  let zeros := (64 + 56 - ((msg.length + 1) % 64)) % 64
  let lenBits := (msg.length * 8) % 18446744073709551616
  msg ++ [0x80] ++ List.replicate zeros 0 ++
    (List.range 8).map (fun i => (lenBits >>> (8 * i)) &&& 255)

/-- Fold the compression function over the blocks: `fuel` is the
number of 16-word blocks remaining. -/
def md5Loop (st : Nat × Nat × Nat × Nat) : Nat → List Nat →
    Nat × Nat × Nat × Nat
  | 0, _ => st
  | fuel + 1, ws => md5Loop (md5Block st (ws.take 16)) fuel (ws.drop 16)

/-- The hex character for a value below 16 (lowercase). -/
def hexDigit (n : Nat) : Char :=
  if n < 10 then Char.ofNat (48 + n) else Char.ofNat (87 + n)

/-- Two lowercase hex characters for one byte. -/
def byteHex (b : Nat) : String :=
  String.mk [hexDigit (b / 16), hexDigit (b % 16)]

/-- Hex rendering of a 32-bit word, little-endian byte order as in
the MD5 digest. -/
def wordHexLE (w : Nat) : String :=
  byteHex (w &&& 255) ++ byteHex ((w >>> 8) &&& 255) ++
    byteHex ((w >>> 16) &&& 255) ++ byteHex ((w >>> 24) &&& 255)

/-- `hashlib.md5(bytes).hexdigest()`: the 32-character lowercase hex
digest of a byte list. -/
def md5Hex (msg : List Nat) : String :=
  let ws := md5Words (md5Pad msg)
  match md5Loop (0x67452301, 0xefcdab89, 0x98badcfe, 0x10325476)
      (ws.length / 16) ws with
  | (a, b, c, d) => wordHexLE a ++ wordHexLE b ++ wordHexLE c ++ wordHexLE d

/-- UTF-8 encoding of one character (`str.encode` on one code point). -/
def utf8EncodeChar (c : Char) : List Nat :=
  let n := c.toNat
  if n < 0x80 then [n]
  else if n < 0x800 then
    [0xc0 ||| (n >>> 6), 0x80 ||| (n &&& 0x3f)]
  else if n < 0x10000 then
    [0xe0 ||| (n >>> 12), 0x80 ||| ((n >>> 6) &&& 0x3f), 0x80 ||| (n &&& 0x3f)]
  else
    [0xf0 ||| (n >>> 18), 0x80 ||| ((n >>> 12) &&& 0x3f),
     0x80 ||| ((n >>> 6) &&& 0x3f), 0x80 ||| (n &&& 0x3f)]

/-- `str.encode()`: the UTF-8 bytes of a string. -/
def utf8Bytes (s : String) : List Nat :=
  s.data.flatMap utf8EncodeChar

/-- `generate_guid`: the MD5 hex digest of the UTF-8 bytes of the
filename field; a missing filename raises `KeyError`. -/
def generate_guid (ep : Episode) : Except Err String :=
  match ep.filename with
  | none => Except.error (Err.keyError "filename")
  | some fn => Except.ok (md5Hex (utf8Bytes fn))

/-! ### XML tree (`xml.etree.ElementTree`)

An `Element` has a tag, an ordered attribute list, an optional text
node and an ordered child list, matching the subset of ElementTree
the script uses. -/

/-- An XML element. -/
inductive Xml where
  | elem (tag : String) (attrs : List (String × String))
      (text : Option String) (children : List Xml)

/-- The tag of an element. -/
def Xml.tag : Xml → String
  | .elem t _ _ _ => t

/-- The attribute list of an element. -/
def Xml.attrs : Xml → List (String × String)
  | .elem _ a _ _ => a

/-- The text node of an element. -/
def Xml.text : Xml → Option String
  | .elem _ _ t _ => t

/-- The child list of an element. -/
def Xml.children : Xml → List Xml
  | .elem _ _ _ c => c

mutual

/-- Serialize one element, indented.  This is a deterministic model
of `tostring` followed by `minidom.toprettyxml(indent="  ")`, both
Python standard-library code outside this repository: a pure
function of the element tree producing the bytes written to disk. -/
def prettyOne (ind : String) : Xml → String
  | Xml.elem tag attrs text children =>
    let attrStr := attrs.foldl
      (fun acc kv => acc ++ " " ++ kv.1 ++ "=\"" ++ kv.2 ++ "\"") ""
    match text, children with
    | none, [] => ind ++ "<" ++ tag ++ attrStr ++ "/>\n"
    | some t, [] => ind ++ "<" ++ tag ++ attrStr ++ ">" ++ t ++
        "</" ++ tag ++ ">\n"
    | t, _ =>
      ind ++ "<" ++ tag ++ attrStr ++ ">" ++
        (match t with | some s => s | none => "") ++ "\n" ++
        prettyList (ind ++ "  ") children ++
        ind ++ "</" ++ tag ++ ">\n"

/-- Serialize a list of sibling elements. -/
def prettyList (ind : String) : List Xml → String
  | [] => ""
  | x :: xs => prettyOne ind x ++ prettyList ind xs

end

/-- The serialized document: XML declaration plus the pretty-printed
tree, as produced by `toprettyxml(indent="  ", encoding="UTF-8")`. -/
def prettyXml (doc : Xml) : String :=
  "<?xml version=\"1.0\" encoding=\"UTF-8\"?>\n" ++ prettyOne "" doc

/-! ### `generate_rss` -/

/-- Python truthiness of `ep.get("duration")`: a missing key gives
`None` (falsy) and the empty string is falsy; any other string is
truthy. -/
def truthyStr (o : Option String) : Bool :=
  match o with
  | none => false
  | some s => s ≠ ""

/-- The sort key `x.get("date", "")` of the episode loop. -/
def sortKey (ep : Episode) : String :=
  ep.date.getD ""

/-- Lexicographic strict order on character lists by code point. -/
def charListLt : List Char → List Char → Bool
  | [], [] => false
  | [], _ :: _ => true
  | _ :: _, [] => false
  | a :: as, b :: bs =>
    if a.toNat < b.toNat then true
    else if b.toNat < a.toNat then false
    else charListLt as bs

/-- Python string comparison `a < b`: lexicographic by code point. -/
def strLtB (a b : String) : Bool :=
  charListLt a.data b.data

/-- Insert a record into a descending-sorted list: after every
record with a strictly greater key, before the first record with a
smaller-or-equal key (so an earlier original record precedes later
records carrying an equal key). -/
def insertDesc (ep : Episode) : List Episode → List Episode
  | [] => [ep]
  | x :: xs =>
    if strLtB (sortKey ep) (sortKey x) then x :: insertDesc ep xs
    else ep :: x :: xs

/-- `sorted(episodes, key=lambda x: x.get("date", ""), reverse=True)`:
the stable descending sort on the date string.  Python string
comparison is code-point lexicographic, as is the Lean `String`
order; a stable sort for a total key preorder has a unique result,
so this insertion sort returns the same list as the Python sort. -/
def sortedEpisodes (episodes : List Episode) : List Episode :=
  match episodes with
  | [] => []
  | ep :: rest => insertDesc ep (sortedEpisodes rest)

/-- The warning line printed for a record whose audio file is
missing. -/
def warnLine (filepath : String) : String :=
  "WARNING: " ++ filepath ++ " not found, skipping"

/-- The `item` element built for one surviving episode (loop body
lines 100-116): title (`KeyError` if absent), description defaulting
to empty, summary, author, explicit flag, duration only when truthy,
guid, pubDate falling back to `now`, and the enclosure with the
download URL, on-disk byte length and fixed MIME type. -/
def buildItem (fs : FS) (now : String) (ep : Episode) (fn : String)
    (filepath : String) : Except Err Xml :=
  match ep.title with
  | none => Except.error (Err.keyError "title")
  | some title =>
    match generate_guid ep with
    | Except.error e => Except.error e
    | Except.ok guid =>
      match fs.getsize filepath with
      | none => Except.error (Err.fileNotFound filepath)
      | some size =>
        Except.ok (Xml.elem "item" [] none
          ([ Xml.elem "title" [] (some title) []
           , Xml.elem "description" [] (some (ep.description.getD "")) []
           , Xml.elem "itunes:summary" [] (some (ep.description.getD "")) []
           , Xml.elem "itunes:author" [] (some PODCAST.author) []
           , Xml.elem "itunes:explicit" [] (some PODCAST.explicit) []
           ] ++
           (if truthyStr ep.duration then
             [Xml.elem "itunes:duration" [] (some (ep.duration.getD "")) []]
            else []) ++
           [ Xml.elem "guid" [] (some guid) []
           , Xml.elem "pubDate" [] (some (ep.date.getD now)) []
           , Xml.elem "enclosure"
               [ ("url", PODCAST.base_url ++ "/episodes/" ++ fn)
               , ("length", toString size)
               , ("type", "audio/mpeg") ] none []
           ]))

/-- The episode loop of `generate_rss` (lines 94-116), over the
already-sorted list: resolve the path from the filename (`KeyError`
if absent), skip the record with a warning when the file is missing,
otherwise build its item.  Returns the item list and the printed
warning lines, or the first error raised. -/
def processEpisodes (fs : FS) (now : String) :
    List Episode → Except Err (List Xml × List String)
  | [] => Except.ok ([], [])
  | ep :: rest =>
    match ep.filename with
    | none => Except.error (Err.keyError "filename")
    | some fn =>
      let filepath := pathJoin EPISODES_DIR fn
      if fs.pathExists filepath then
        match buildItem fs now ep fn filepath with
        | Except.error e => Except.error e
        | Except.ok item =>
          match processEpisodes fs now rest with
          | Except.error e => Except.error e
          | Except.ok (items, warns) => Except.ok (item :: items, warns)
      else
        match processEpisodes fs now rest with
        | Except.error e => Except.error e
        | Except.ok (items, warns) =>
          Except.ok (items, warnLine filepath :: warns)

/-- The fixed channel metadata children (lines 64-91), in insertion
order. -/
def channelMeta : List Xml :=
  [ Xml.elem "title" [] (some PODCAST.title) []
  , Xml.elem "description" [] (some PODCAST.description) []
  , Xml.elem "language" [] (some PODCAST.language) []
  , Xml.elem "link" [] (some PODCAST.website) []
  , Xml.elem "atom:link"
      [ ("href", PODCAST.base_url ++ "/feed.xml")
      , ("rel", "self")
      , ("type", "application/rss+xml") ] none []
  , Xml.elem "itunes:author" [] (some PODCAST.author) []
  , Xml.elem "itunes:summary" [] (some PODCAST.description) []
  , Xml.elem "itunes:explicit" [] (some PODCAST.explicit) []
  , Xml.elem "itunes:owner" [] none
      [ Xml.elem "itunes:name" [] (some PODCAST.author) []
      , Xml.elem "itunes:email" [] (some PODCAST.email) [] ]
  , Xml.elem "itunes:image" [("href", PODCAST.image)] none []
  , Xml.elem "itunes:category" [("text", PODCAST.category)] none
      [ Xml.elem "itunes:category" [("text", PODCAST.subcategory)] none [] ] ]

/-- The complete `rss` document tree for a given item list. -/
def rssDoc (items : List Xml) : Xml :=
  Xml.elem "rss"
    [ ("version", "2.0")
    , ("xmlns:itunes", "http://www.itunes.com/dtds/podcast-1.0.dtd")
    , ("xmlns:content", "http://purl.org/rss/1.0/modules/content/")
    , ("xmlns:atom", "http://www.w3.org/2005/Atom") ] none
    [ Xml.elem "channel" [] none (channelMeta ++ items) ]

/-- `generate_rss` up to serialization: the document tree and the
warning lines, or the first error. -/
def buildDoc (episodes : List Episode) (fs : FS) (now : String) :
    Except Err (Xml × List String) :=
  match processEpisodes fs now (sortedEpisodes episodes) with
  | Except.error e => Except.error e
  | Except.ok (items, warns) => Except.ok (rssDoc items, warns)

/-- `generate_rss`: the serialized feed bytes and the printed warning
lines, or the first error. -/
def generate_rss (episodes : List Episode) (fs : FS) (now : String) :
    Except Err (String × List String) :=
  match buildDoc episodes fs now with
  | Except.error e => Except.error e
  | Except.ok (doc, warns) => Except.ok (prettyXml doc, warns)

/-- The items of a document: the children of its channel tagged
`item`. -/
def docItems (doc : Xml) : List Xml :=
  ((doc.children.headD (Xml.elem "" [] none [])).children).filter
    (fun c => c.tag == "item")

/-! ### `main` -/

/-- The observable outcome of a successful run: the content written
to `feed.xml` (`none` when no file was opened) and the lines printed
to the console, in order. -/
structure RunResult where
  written : Option String
  printed : List String
deriving DecidableEq, Repr

namespace Script

/-- `main` (lines 124-136): load the records; on an empty sequence
print the no-episodes message and return without writing; otherwise
build the feed fully in memory, then write it and print the summary
lines.  An uncaught exception is an `Except.error`, with no file
written. -/
def main (meta : Option (List Episode)) (fs : FS) (now : String) :
    Except Err RunResult :=
  let episodes := load_episodes meta
  if episodes.isEmpty then
    Except.ok ⟨none, ["No episodes found in episodes.json!"]⟩
  else
    match generate_rss episodes fs now with
    | Except.error e => Except.error e
    | Except.ok (feed, warns) =>
      Except.ok ⟨some feed,
        warns ++
          [ "Generated feed.xml with " ++ toString episodes.length ++
              " episodes"
          , "Feed URL: " ++ PODCAST.base_url ++ "/feed.xml" ]⟩

end Script

deriving instance DecidableEq for Except

/-! ### Statement-side accessors -/

/-- The resolved audio path of a record: the episodes directory
joined with its filename (empty string when the key is absent, in
which case the loop raises before using the path). -/
def resolvedPath (ep : Episode) : String :=
  pathJoin EPISODES_DIR (ep.filename.getD "")

/-- Whether the resolved audio file of the record exists. -/
def fileOk (fs : FS) (ep : Episode) : Bool :=
  fs.pathExists (resolvedPath ep)

/-- The item element the loop builds for a surviving record (total
extraction of `buildItem`; the default branch is unreachable for
records the loop keeps). -/
def itemOf (fs : FS) (now : String) (ep : Episode) : Xml :=
  match buildItem fs now ep (ep.filename.getD "") (resolvedPath ep) with
  | Except.ok x => x
  | Except.error _ => Xml.elem "" [] none []

/-- The text of the first child of an item: its title element text. -/
def itemTitle (x : Xml) : Option String :=
  (x.children.headD (Xml.elem "" [] none [])).text

/-- The text of the pubDate child of an item built for a record with
no duration field (position 6 of its children). -/
def itemPubDate (x : Xml) : Option String :=
  (x.children.getD 6 (Xml.elem "" [] none [])).text

/-- The records the loop keeps, in emission order: the sorted list
restricted to records whose file exists. -/
def survivors (fs : FS) (episodes : List Episode) : List Episode :=
  (sortedEpisodes episodes).filter (fun ep => fileOk fs ep)

/-- The records the loop skips, in warning order: the sorted list
restricted to records whose file is missing. -/
def skipped (fs : FS) (episodes : List Episode) : List Episode :=
  (sortedEpisodes episodes).filter (fun ep => !fileOk fs ep)

/-! ### Concrete test fixtures -/

/-- Record dated Wednesday January 1 2025. -/
def epJan1 : Episode :=
  ⟨some "ep1.mp3", some "Episode One", none, none,
    some "Wed, 01 Jan 2025 00:00:00 +0000"⟩

/-- Record dated Thursday January 2 2025. -/
def epJan2 : Episode :=
  ⟨some "ep2.mp3", some "Episode Two", none, none,
    some "Thu, 02 Jan 2025 00:00:00 +0000"⟩

/-- Record with no date field. -/
def epNoDate : Episode :=
  ⟨some "ep3.mp3", some "Episode Three", none, none, none⟩

/-- Record with a duration field. -/
def epDur : Episode :=
  ⟨some "ep1.mp3", some "Episode One", some "About one", some "12:34",
    some "Wed, 01 Jan 2025 00:00:00 +0000"⟩

/-- Record whose audio file is absent from every fixture filesystem
and which lacks a title. -/
def epGhost : Episode :=
  ⟨some "ghost.mp3", none, none, none,
    some "Wed, 01 Jan 2025 00:00:00 +0000"⟩

/-- Record whose audio file is absent from the fixture filesystem
but which is otherwise complete. -/
def epMissing : Episode :=
  ⟨some "missing.mp3", some "Missing Episode", none, none,
    some "Mon, 06 Jan 2025 00:00:00 +0000"⟩

/-- Record lacking the filename field. -/
def epNoFilename : Episode :=
  ⟨none, some "Nameless", none, none,
    some "Wed, 01 Jan 2025 00:00:00 +0000"⟩

/-- Filesystem holding the three fixture audio files. -/
def fsAll : FS :=
  ⟨[("episodes/ep1.mp3", 100), ("episodes/ep2.mp3", 200),
    ("episodes/ep3.mp3", 300)]⟩

/-- The empty filesystem. -/
def fsEmpty : FS := ⟨[]⟩

/-- A corpus of distinct filenames for the guid distinctness check. -/
def guidCorpus : List String :=
  ["episode-001.mp3", "episode-002.mp3", "episode-003.mp3", "intro.mp3"]

/-! ### Sanity checks of the MD5 translation (standard test
vectors) -/

/-- MD5 test vector for the empty message. -/
theorem md5_vector_empty :
    md5Hex (utf8Bytes "") = "d41d8cd98f00b204e9800998ecf8427e" := by
  decide

/-- MD5 test vector for the message "abc". -/
theorem md5_vector_abc :
    md5Hex (utf8Bytes "abc") = "900150983cd24fb0d6963f7d28e17f72" := by
  decide

/-! ### Helper lemmas about the episode loop -/

/-- For a record the loop keeps (filename present, title present,
file on disk), `buildItem` succeeds and returns `itemOf`. -/
theorem buildItem_ok (fs : FS) (now : String) (ep : Episode)
    (fn : String) (hfn : ep.filename = some fn)
    (ht : ep.title.isSome = true)
    (hex : fs.pathExists (pathJoin EPISODES_DIR fn) = true) :
    buildItem fs now ep fn (pathJoin EPISODES_DIR fn) =
      Except.ok (itemOf fs now ep) := by
  obtain ⟨t, ht⟩ := Option.isSome_iff_exists.mp ht
  have hex' : (fs.files.lookup (pathJoin EPISODES_DIR fn)).isSome = true := hex
  obtain ⟨sz, hsz⟩ := Option.isSome_iff_exists.mp hex'
  simp [buildItem, itemOf, generate_guid, resolvedPath, FS.getsize, hfn, ht,
    hsz]

/-- Exact characterization of a successful episode loop: when every
record has a filename, and every record whose file exists has a
title, the loop returns the items of the surviving records in order
and one warning per skipped record in order. -/
theorem processEpisodes_ok_char (fs : FS) (now : String)
    (l : List Episode)
    (hfn : ∀ ep ∈ l, ep.filename.isSome)
    (htitle : ∀ ep ∈ l, fileOk fs ep = true → ep.title.isSome) :
    processEpisodes fs now l =
      Except.ok ((l.filter (fun ep => fileOk fs ep)).map (itemOf fs now),
        (l.filter (fun ep => !fileOk fs ep)).map
          (fun ep => warnLine (resolvedPath ep))) := by
  induction l with
  | nil => rfl
  | cons ep rest ih =>
    obtain ⟨fn, hfn1⟩ :=
      Option.isSome_iff_exists.mp (hfn ep (List.mem_cons_self ep rest))
    have hrest := ih (fun e he => hfn e (List.mem_cons_of_mem _ he))
      (fun e he => htitle e (List.mem_cons_of_mem _ he))
    have hpath : resolvedPath ep = pathJoin EPISODES_DIR fn := by
      simp [resolvedPath, hfn1]
    cases hex : fileOk fs ep with
    | true =>
      have hex' : fs.pathExists (pathJoin EPISODES_DIR fn) = true := by
        rw [← hpath]; exact hex
      have hb := buildItem_ok fs now ep fn hfn1
        (htitle ep (List.mem_cons_self ep rest) hex) hex'
      simp [processEpisodes, hfn1, hex', hb, hrest, List.filter_cons, hex,
        hpath]
    | false =>
      have hex' : fs.pathExists (pathJoin EPISODES_DIR fn) = false := by
        rw [← hpath]; exact hex
      simp [processEpisodes, hfn1, hex', hrest, List.filter_cons, hex, hpath]

/-- Necessary conditions for the loop not to raise: every record has
a filename, and every record whose file exists has a title. -/
theorem processEpisodes_isOk_mem (fs : FS) (now : String)
    (l : List Episode)
    (hok : (processEpisodes fs now l).isOk = true) :
    ∀ ep ∈ l, ep.filename.isSome ∧ (fileOk fs ep = true → ep.title.isSome) := by
  induction l with
  | nil => simp
  | cons ep rest ih =>
    cases hfn : ep.filename with
    | none => simp [processEpisodes, hfn, Except.isOk, Except.toBool] at hok
    | some fn =>
      have hpath : resolvedPath ep = pathJoin EPISODES_DIR fn := by
        simp [resolvedPath, hfn]
      cases hex : fs.pathExists (pathJoin EPISODES_DIR fn) with
      | false =>
        have hrest : (processEpisodes fs now rest).isOk = true := by
          cases hr : processEpisodes fs now rest with
          | error e =>
            simp [processEpisodes, hfn, hex, hr, Except.isOk,
              Except.toBool] at hok
          | ok p => simp [Except.isOk, Except.toBool]
        intro e he
        rcases List.mem_cons.mp he with rfl | he
        · exact ⟨by simp [hfn], fun hc => by
            rw [fileOk, hpath] at hc; simp [hc] at hex⟩
        · exact ih hrest e he
      | true =>
        cases ht : ep.title with
        | none =>
          simp [processEpisodes, hfn, hex, buildItem, ht, Except.isOk,
            Except.toBool] at hok
        | some t =>
          have hb := buildItem_ok fs now ep fn hfn (by simp [ht]) hex
          have hrest : (processEpisodes fs now rest).isOk = true := by
            cases hr : processEpisodes fs now rest with
            | error e =>
              simp [processEpisodes, hfn, hex, hb, hr, Except.isOk,
                Except.toBool] at hok
            | ok p => simp [Except.isOk, Except.toBool]
          intro e he
          rcases List.mem_cons.mp he with rfl | he
          · exact ⟨by simp [hfn], fun _ => by simp [ht]⟩
          · exact ih hrest e he

/-- `buildItem` does not depend on the current time when the record
carries a date. -/
theorem buildItem_now_indep (fs : FS) (ep : Episode)
    (fn p now1 now2 : String) (hd : ep.date.isSome = true) :
    buildItem fs now1 ep fn p = buildItem fs now2 ep fn p := by
  obtain ⟨d, hd⟩ := Option.isSome_iff_exists.mp hd
  simp [buildItem, hd]

/-- The episode loop does not depend on the current time when every
record carries a date. -/
theorem processEpisodes_now_indep (fs : FS) (l : List Episode)
    (now1 now2 : String) (hd : ∀ ep ∈ l, ep.date.isSome) :
    processEpisodes fs now1 l = processEpisodes fs now2 l := by
  induction l with
  | nil => rfl
  | cons ep rest ih =>
    have hrest := ih (fun e he => hd e (List.mem_cons_of_mem _ he))
    cases hfn : ep.filename with
    | none => simp [processEpisodes, hfn]
    | some fn =>
      rw [processEpisodes, processEpisodes, hfn]
      simp only
      rw [buildItem_now_indep fs ep fn (pathJoin EPISODES_DIR fn) now1 now2
        (hd ep (List.mem_cons_self ep rest)), hrest]

/-- Every item kept by the loop has tag `item`. -/
theorem itemOf_tag (fs : FS) (now : String) (ep : Episode)
    (hfn : ep.filename.isSome = true) (ht : ep.title.isSome = true)
    (hex : fileOk fs ep = true) :
    (itemOf fs now ep).tag = "item" := by
  obtain ⟨fn, hfn1⟩ := Option.isSome_iff_exists.mp hfn
  obtain ⟨t, ht1⟩ := Option.isSome_iff_exists.mp ht
  have hex' : (fs.files.lookup (resolvedPath ep)).isSome = true := hex
  obtain ⟨sz, hsz⟩ := Option.isSome_iff_exists.mp hex'
  simp [itemOf, buildItem, generate_guid, hfn1, ht1, FS.getsize, hsz,
    Xml.tag]

/-- The channel metadata contains no element tagged `item`, so the
items of the built document are exactly the item list it was built
from, provided all its members are tagged `item`. -/
theorem docItems_rssDoc (items : List Xml)
    (h : ∀ x ∈ items, x.tag = "item") :
    docItems (rssDoc items) = items := by
  have h2 : items.filter (fun c => c.tag == "item") = items :=
    List.filter_eq_self.mpr (fun x hx => by simp [h x hx])
  have h1 : channelMeta.filter (fun c => c.tag == "item") = [] := by rfl
  simp [docItems, rssDoc, Xml.children, List.filter_append, h1, h2]

/-- Inserting into the sorted list permutes consing. -/
theorem insertDesc_perm (ep : Episode) (l : List Episode) :
    (insertDesc ep l).Perm (ep :: l) := by
  induction l with
  | nil => exact List.Perm.refl _
  | cons x xs ih =>
    rw [insertDesc]
    cases h : strLtB (sortKey ep) (sortKey x) with
    | true =>
      rw [if_pos rfl]
      exact (ih.cons x).trans (List.Perm.swap ep x xs)
    | false => rw [if_neg (by simp)]

/-- The sort is a permutation of its input. -/
theorem sortedEpisodes_perm (l : List Episode) :
    (sortedEpisodes l).Perm l := by
  induction l with
  | nil => exact List.Perm.refl _
  | cons ep rest ih =>
    exact (insertDesc_perm ep (sortedEpisodes rest)).trans (ih.cons ep)

/-- Membership is preserved by the sort. -/
theorem mem_sortedEpisodes {a : Episode} {l : List Episode} :
    a ∈ sortedEpisodes l ↔ a ∈ l :=
  (sortedEpisodes_perm l).mem_iff

/-- `generate_rss` succeeds exactly when its episode loop does. -/
theorem generate_rss_isOk (episodes : List Episode) (fs : FS)
    (now : String) :
    (generate_rss episodes fs now).isOk =
      (processEpisodes fs now (sortedEpisodes episodes)).isOk := by
  cases h : processEpisodes fs now (sortedEpisodes episodes) with
  | error e =>
    simp [generate_rss, buildDoc, h, Except.isOk, Except.toBool]
  | ok p =>
    cases p with
    | mk items warns =>
      simp [generate_rss, buildDoc, h, Except.isOk, Except.toBool]

/-! ### Claim theorems -/

/-- C1 counterexample: with the three records of the claim and all
three audio files on disk, the items of the generated feed are NOT in
the order Jan 2, Jan 1, dateless.  The date string of the Jan 1
record begins with "Wed" and that of the Jan 2 record with "Thu", and
"Wed" compares lexicographically greater, so the descending
lexicographic sort emits the Jan 1 record first. -/
theorem c1_claim_counterexample :
    (buildDoc [epJan1, epJan2, epNoDate] fsAll "NOW").map
        (fun p => (docItems p.1).map itemTitle) ≠
      Except.ok [some "Episode Two", some "Episode One", some "Episode Three"] := by
  decide

/-- C1 amended: with the three records of the claim and all three
audio files on disk, the items appear in the order Jan 1, Jan 2,
dateless: the sort key is the date string compared lexicographically
in descending order, a record lacking a date uses the empty string
(sorting last), and "Wed, 01 Jan 2025..." compares greater than
"Thu, 02 Jan 2025...". -/
theorem c1_sort_order :
    sortedEpisodes [epJan1, epJan2, epNoDate] = [epJan1, epJan2, epNoDate] ∧
    (buildDoc [epJan1, epJan2, epNoDate] fsAll "NOW").map
        (fun p => (docItems p.1).map itemTitle) =
      Except.ok [some "Episode One", some "Episode Two", some "Episode Three"] ∧
    strLtB (sortKey epJan2) (sortKey epJan1) = true ∧ sortKey epNoDate = "" := by
  refine ⟨by decide, by decide, by decide, rfl⟩

/-- C3: `generate_guid` is a pure function of the filename field: two
records with equal filenames get equal guids; the guid of a record
with filename `fn` is the MD5 hex digest of the UTF-8 bytes of `fn`;
and over a corpus of distinct filenames the digests are pairwise
distinct. -/
theorem c3_guid_deterministic :
    (∀ e1 e2 : Episode, e1.filename = e2.filename →
      generate_guid e1 = generate_guid e2) ∧
    (∀ fn t d du da, generate_guid ⟨some fn, t, d, du, da⟩ =
      Except.ok (md5Hex (utf8Bytes fn))) ∧
    (guidCorpus.map (fun fn => md5Hex (utf8Bytes fn))).Nodup := by
  refine ⟨fun e1 e2 h => ?_, fun fn t d du da => rfl, by decide⟩
  simp only [generate_guid, h]

/-- C3 witness: two records sharing the filename but differing in
every other field receive the same guid. -/
theorem c3_guid_deterministic_witness :
    (Episode.mk (some "x.mp3") (some "A") none none none).filename =
      (Episode.mk (some "x.mp3") (some "B") (some "d") (some "9:00")
        (some "Wed, 01 Jan 2025 00:00:00 +0000")).filename ∧
    generate_guid (Episode.mk (some "x.mp3") (some "A") none none none) =
      generate_guid (Episode.mk (some "x.mp3") (some "B") (some "d")
        (some "9:00") (some "Wed, 01 Jan 2025 00:00:00 +0000")) :=
  ⟨rfl, c3_guid_deterministic.1 _ _ rfl⟩

/-- C6: with an absent metadata file or one holding an empty array,
`main` prints the no-episodes message and writes nothing. -/
theorem c6_empty_input (meta : Option (List Episode)) (fs : FS)
    (now : String) (h : meta = none ∨ meta = some []) :
    Script.main meta fs now =
      Except.ok ⟨none, ["No episodes found in episodes.json!"]⟩ := by
  rcases h with rfl | rfl <;> rfl

/-- C6 witness: the absent-file case at a concrete filesystem. -/
theorem c6_empty_input_witness :
    ((none : Option (List Episode)) = none ∨
      (none : Option (List Episode)) = some []) ∧
    Script.main none fsAll "NOW" =
      Except.ok ⟨none, ["No episodes found in episodes.json!"]⟩ :=
  ⟨Or.inl rfl, c6_empty_input none fsAll "NOW" (Or.inl rfl)⟩

/-- C2: for well-formed records (filename and title present), the
feed build succeeds, the items of the document are exactly one item
per surviving record in order, and their number equals the number of
input records whose resolved audio path exists; records with a
missing file are dropped, not errored. -/
theorem c2_item_count (episodes : List Episode) (fs : FS) (now : String)
    (hne : episodes ≠ [])
    (hfn : ∀ ep ∈ episodes, ep.filename.isSome)
    (htitle : ∀ ep ∈ episodes, ep.title.isSome) :
    buildDoc episodes fs now =
      Except.ok (rssDoc ((survivors fs episodes).map (itemOf fs now)),
        (skipped fs episodes).map (fun ep => warnLine (resolvedPath ep))) ∧
    docItems (rssDoc ((survivors fs episodes).map (itemOf fs now))) =
      (survivors fs episodes).map (itemOf fs now) ∧
    ((survivors fs episodes).map (itemOf fs now)).length =
      episodes.countP (fun ep => fileOk fs ep) := by
  have hfn' : ∀ ep ∈ sortedEpisodes episodes, ep.filename.isSome :=
    fun e he => hfn e (mem_sortedEpisodes.mp he)
  have htitle' : ∀ ep ∈ sortedEpisodes episodes,
      fileOk fs ep = true → ep.title.isSome :=
    fun e he _ => htitle e (mem_sortedEpisodes.mp he)
  have hchar := processEpisodes_ok_char fs now (sortedEpisodes episodes)
    hfn' htitle'
  refine ⟨?_, ?_, ?_⟩
  · simp [buildDoc, hchar, survivors, skipped]
  · refine docItems_rssDoc _ (fun x hx => ?_)
    obtain ⟨ep, hep, rfl⟩ := List.mem_map.mp hx
    have hep' := List.mem_filter.mp hep
    exact itemOf_tag fs now ep (hfn' ep hep'.1) (htitle' ep hep'.1 hep'.2)
      hep'.2
  · rw [List.length_map, survivors, ← List.countP_eq_length_filter]
    exact (sortedEpisodes_perm episodes).countP_eq _

/-- C2 witness: two records, one of whose files is missing. -/
theorem c2_item_count_witness :
    ([epJan1, epMissing] ≠ ([] : List Episode)) ∧
    (buildDoc [epJan1, epMissing] fsAll "NOW" =
      Except.ok
        (rssDoc ((survivors fsAll [epJan1, epMissing]).map
          (itemOf fsAll "NOW")),
        (skipped fsAll [epJan1, epMissing]).map
          (fun ep => warnLine (resolvedPath ep))) ∧
    docItems (rssDoc ((survivors fsAll [epJan1, epMissing]).map
        (itemOf fsAll "NOW"))) =
      (survivors fsAll [epJan1, epMissing]).map (itemOf fsAll "NOW") ∧
    ((survivors fsAll [epJan1, epMissing]).map (itemOf fsAll "NOW")).length =
      List.countP (fun ep => fileOk fsAll ep) [epJan1, epMissing]) :=
  ⟨by decide,
   c2_item_count [epJan1, epMissing] fsAll "NOW" (by decide) (by decide)
     (by decide)⟩

/-- C7: with filenames present and titles present on records whose
file exists, the feed build succeeds with exactly one warning line
per skipped record, in order, each of the form
`WARNING: <path> not found, skipping`; the number of warning lines is
the number of records whose resolved path is missing. -/
theorem c7_missing_file_warning (episodes : List Episode) (fs : FS)
    (now : String)
    (hfn : ∀ ep ∈ episodes, ep.filename.isSome)
    (htitle : ∀ ep ∈ episodes, fileOk fs ep = true → ep.title.isSome) :
    buildDoc episodes fs now =
      Except.ok (rssDoc ((survivors fs episodes).map (itemOf fs now)),
        (skipped fs episodes).map (fun ep => warnLine (resolvedPath ep))) ∧
    ((skipped fs episodes).map (fun ep => warnLine (resolvedPath ep))).length =
      episodes.countP (fun ep => !fileOk fs ep) := by
  have hfn' : ∀ ep ∈ sortedEpisodes episodes, ep.filename.isSome :=
    fun e he => hfn e (mem_sortedEpisodes.mp he)
  have htitle' : ∀ ep ∈ sortedEpisodes episodes,
      fileOk fs ep = true → ep.title.isSome :=
    fun e he h => htitle e (mem_sortedEpisodes.mp he) h
  have hchar := processEpisodes_ok_char fs now (sortedEpisodes episodes)
    hfn' htitle'
  refine ⟨by simp [buildDoc, hchar, survivors, skipped], ?_⟩
  rw [List.length_map, skipped, ← List.countP_eq_length_filter]
  exact (sortedEpisodes_perm episodes).countP_eq _

/-- C7 witness: one record with its file, one without. -/
theorem c7_missing_file_warning_witness :
    buildDoc [epJan1, epMissing] fsAll "NOW" =
      Except.ok (rssDoc ((survivors fsAll [epJan1, epMissing]).map
        (itemOf fsAll "NOW")),
        (skipped fsAll [epJan1, epMissing]).map
          (fun ep => warnLine (resolvedPath ep))) ∧
    ((skipped fsAll [epJan1, epMissing]).map
        (fun ep => warnLine (resolvedPath ep))).length =
      List.countP (fun ep => !fileOk fsAll ep) [epJan1, epMissing] :=
  c7_missing_file_warning [epJan1, epMissing] fsAll "NOW" (by decide)
    (by decide)

/-- C4: when every loaded record carries a date, the output of
`main` does not depend on the wall clock, so two runs on unchanged
inputs produce byte-identical feeds; and with a dateless record the
built document does depend on the wall clock (the item pubDate falls
back to the current time), shown at a concrete input. -/
theorem c4_idempotent :
    (∀ (meta : Option (List Episode)) (fs : FS) (now1 now2 : String),
      (∀ ep ∈ load_episodes meta, ep.date.isSome) →
      Script.main meta fs now1 = Script.main meta fs now2) ∧
    (buildDoc [epNoDate] fsAll "Mon, 06 Jan 2025 00:00:00 +0000").map
        (fun p => (docItems p.1).map itemPubDate) ≠
      (buildDoc [epNoDate] fsAll "Tue, 07 Jan 2025 00:00:00 +0000").map
        (fun p => (docItems p.1).map itemPubDate) := by
  constructor
  · intro meta fs now1 now2 hd
    have hd' : ∀ ep ∈ sortedEpisodes (load_episodes meta), ep.date.isSome :=
      fun e he => hd e (mem_sortedEpisodes.mp he)
    have h := processEpisodes_now_indep fs (sortedEpisodes (load_episodes meta))
      now1 now2 hd'
    simp [Script.main, generate_rss, buildDoc, h]
  · decide

/-- C4 witness: a dated record gives identical runs under two
different clock values. -/
theorem c4_idempotent_witness :
    (∀ ep ∈ load_episodes (some [epJan1]), ep.date.isSome) ∧
    Script.main (some [epJan1]) fsAll "A" =
      Script.main (some [epJan1]) fsAll "B" :=
  ⟨by decide, c4_idempotent.1 (some [epJan1]) fsAll "A" "B" (by decide)⟩

/-- C5 counterexample: a non-empty episode list with a record missing
the required title field on which `main` neither raises nor withholds
the output file: the record also lacks its audio file, so the loop
skips it before reading the title, and `main` succeeds and writes an
empty feed. -/
theorem c5_claim_counterexample :
    epGhost.title = none ∧
    (Script.main (some [epGhost]) fsEmpty "NOW").map
        (fun r => (r.written.isSome, r.printed)) =
      Except.ok (true,
        [ warnLine "episodes/ghost.mp3"
        , "Generated feed.xml with 1 episodes"
        , "Feed URL: https://jackknifeai.github.io/truth-report-podcast/feed.xml" ]) := by
  exact ⟨rfl, by decide⟩

/-- C5 amended: if some loaded record lacks the filename field, or
some loaded record whose audio file exists lacks the title field,
`main` terminates with an uncaught failure, and no output value is
produced (in the embedding the document is built fully before the
output file is opened, so an error yields no written file at all).
A record lacking only the title whose audio file is missing is
skipped and does not fail. -/
theorem c5_fail_no_write (meta : Option (List Episode)) (fs : FS)
    (now : String)
    (h : ∃ ep ∈ load_episodes meta, ep.filename = none ∨
      (fileOk fs ep = true ∧ ep.title = none)) :
    (Script.main meta fs now).isOk = false := by
  obtain ⟨ep, hmem, hbad⟩ := h
  have hne : (load_episodes meta).isEmpty = false := by
    cases hl : load_episodes meta with
    | nil => rw [hl] at hmem; exact absurd hmem (List.not_mem_nil ep)
    | cons a as => rfl
  cases hres : processEpisodes fs now (sortedEpisodes (load_episodes meta)) with
  | error e =>
    simp [Script.main, hne, generate_rss, buildDoc, hres, Except.isOk,
      Except.toBool]
  | ok p =>
    exfalso
    have hmem' : ep ∈ sortedEpisodes (load_episodes meta) :=
      mem_sortedEpisodes.mpr hmem
    have hprops := processEpisodes_isOk_mem fs now _
      (by simp [hres, Except.isOk, Except.toBool]) ep hmem'
    rcases hbad with hb | ⟨hfk, hti⟩
    · have h1 := hprops.1
      rw [hb] at h1
      simp at h1
    · have h2 := hprops.2 hfk
      rw [hti] at h2
      simp at h2

/-- C5 witness: a record lacking the filename field makes the run
fail. -/
theorem c5_fail_no_write_witness :
    (∃ ep ∈ load_episodes (some [epNoFilename]), ep.filename = none ∨
      (fileOk fsEmpty ep = true ∧ ep.title = none)) ∧
    (Script.main (some [epNoFilename]) fsEmpty "NOW").isOk = false :=
  ⟨⟨epNoFilename, by simp [load_episodes], Or.inl rfl⟩,
   c5_fail_no_write (some [epNoFilename]) fsEmpty "NOW"
     ⟨epNoFilename, by simp [load_episodes], Or.inl rfl⟩⟩

/-- C8: the item built for a record contains a duration child exactly
when the duration field is present and non-empty; with the field
absent or empty there is no duration element at all, and when present
the single duration element carries the field value as its text. -/
theorem c8_duration_omitted (fs : FS) (now : String) (ep : Episode)
    (fn p : String) (item : Xml)
    (h : buildItem fs now ep fn p = Except.ok item) :
    item.children.filter (fun c => c.tag == "itunes:duration") =
      (if ep.duration = none ∨ ep.duration = some "" then []
       else [Xml.elem "itunes:duration" [] (some (ep.duration.getD "")) []]) := by
  cases ht : ep.title with
  | none => simp [buildItem, ht] at h
  | some t =>
    cases hfn1 : ep.filename with
    | none => simp [buildItem, ht, generate_guid, hfn1] at h
    | some fn1 =>
      cases hsz : fs.getsize p with
      | none => simp [buildItem, ht, generate_guid, hfn1, hsz] at h
      | some sz =>
        simp only [buildItem, ht, generate_guid, hfn1, hsz,
          Except.ok.injEq] at h
        subst h
        cases hd : ep.duration with
        | none => simp [Xml.children, truthyStr, hd, List.filter, Xml.tag]
        | some d =>
          by_cases hde : d = ""
          · subst hde
            simp [Xml.children, truthyStr, hd, List.filter, Xml.tag]
          · simp [Xml.children, truthyStr, hd, hde, List.filter, Xml.tag]

/-- C8 witness: a record with duration "12:34" gets exactly one
duration element carrying that text. -/
theorem c8_duration_omitted_witness :
    buildItem fsAll "NOW" epDur "ep1.mp3" "episodes/ep1.mp3" =
      Except.ok (itemOf fsAll "NOW" epDur) ∧
    (itemOf fsAll "NOW" epDur).children.filter
        (fun c => c.tag == "itunes:duration") =
      (if epDur.duration = none ∨ epDur.duration = some "" then []
       else [Xml.elem "itunes:duration" [] (some (epDur.duration.getD ""))
         []]) :=
  ⟨rfl, c8_duration_omitted fsAll "NOW" epDur "ep1.mp3" "episodes/ep1.mp3"
    (itemOf fsAll "NOW" epDur) rfl⟩

/-- C9: on every successful run with a non-empty loaded list, the
printed summary count is the number of loaded records, skipped ones
included; at a concrete input with one existing and one missing audio
file the summary says 2 episodes while the feed holds 1 item. -/
theorem c9_summary_counts_loaded :
    (∀ (meta : Option (List Episode)) (fs : FS) (now : String)
      (r : RunResult),
      Script.main meta fs now = Except.ok r →
      (load_episodes meta).isEmpty = false →
      ("Generated feed.xml with " ++ toString (load_episodes meta).length ++
        " episodes") ∈ r.printed) ∧
    (Script.main (some [epJan1, epMissing]) fsAll "NOW").map
        (fun r => r.printed) =
      Except.ok [ warnLine "episodes/missing.mp3"
                , "Generated feed.xml with 2 episodes"
                , "Feed URL: https://jackknifeai.github.io/truth-report-podcast/feed.xml" ] ∧
    (buildDoc [epJan1, epMissing] fsAll "NOW").map
        (fun p => (docItems p.1).length) = Except.ok 1 := by
  refine ⟨?_, by decide, by decide⟩
  intro meta fs now r hok hne
  have hne' : ¬((load_episodes meta).isEmpty = true) := by
    rw [hne]; exact Bool.false_ne_true
  rw [Script.main, if_neg hne'] at hok
  cases hres : generate_rss (load_episodes meta) fs now with
  | error e => rw [hres] at hok; exact absurd hok (by simp)
  | ok p =>
    cases p with
    | mk feed warns =>
      rw [hres] at hok
      simp only [Except.ok.injEq] at hok
      subst hok
      simp

/-- C9 witness: the universal part applied at a concrete run with
two loaded records, one of them skipped. -/
theorem c9_summary_counts_loaded_witness :
    ("Generated feed.xml with " ++
        toString (load_episodes (some [epJan1, epMissing])).length ++
        " episodes") ∈
      [ warnLine "episodes/missing.mp3"
      , "Generated feed.xml with 2 episodes"
      , "Feed URL: https://jackknifeai.github.io/truth-report-podcast/feed.xml" ] :=
  c9_summary_counts_loaded.1 (some [epJan1, epMissing]) fsAll "NOW"
    ⟨some (prettyXml (rssDoc ((survivors fsAll [epJan1, epMissing]).map
      (itemOf fsAll "NOW")))),
     [ warnLine "episodes/missing.mp3"
     , "Generated feed.xml with 2 episodes"
     , "Feed URL: https://jackknifeai.github.io/truth-report-podcast/feed.xml" ]⟩
    (by rfl) rfl

/-- C10: a record whose audio file is missing is skipped before any
field beyond filename and date is read: the build succeeds whenever
every record has a filename and every record whose file exists has a
title (a missing-file record may lack its title); and a record
lacking the filename field always makes the build fail, whatever the
filesystem. -/
theorem c10_skip_before_title_access :
    (∀ (episodes : List Episode) (fs : FS) (now : String),
      (∀ ep ∈ episodes, ep.filename.isSome) →
      (∀ ep ∈ episodes, fileOk fs ep = true → ep.title.isSome) →
      (generate_rss episodes fs now).isOk = true) ∧
    (∀ (episodes : List Episode) (fs : FS) (now : String) (ep : Episode),
      ep ∈ episodes → ep.filename = none →
      (generate_rss episodes fs now).isOk = false) := by
  constructor
  · intro episodes fs now hfn htitle
    rw [generate_rss_isOk]
    rw [processEpisodes_ok_char fs now (sortedEpisodes episodes)
      (fun e he => hfn e (mem_sortedEpisodes.mp he))
      (fun e he h => htitle e (mem_sortedEpisodes.mp he) h)]
    rfl
  · intro episodes fs now ep hmem hfn
    rw [generate_rss_isOk]
    cases hres : processEpisodes fs now (sortedEpisodes episodes) with
    | error e => rfl
    | ok p =>
      exfalso
      have h := processEpisodes_isOk_mem fs now _
        (by simp [hres, Except.isOk, Except.toBool]) ep
        (mem_sortedEpisodes.mpr hmem)
      have h1 := h.1
      rw [hfn] at h1
      simp at h1

/-- C10 witness: a list whose missing-file record lacks a title
renders fine, and a list with a filename-less record fails even
though its other records are intact. -/
theorem c10_skip_before_title_access_witness :
    (generate_rss [epJan1, epGhost] fsAll "NOW").isOk = true ∧
    (generate_rss [epJan1, epNoFilename] fsAll "NOW").isOk = false :=
  ⟨c10_skip_before_title_access.1 [epJan1, epGhost] fsAll "NOW" (by decide)
      (by decide),
   c10_skip_before_title_access.2 [epJan1, epNoFilename] fsAll "NOW"
     epNoFilename (by decide) rfl⟩
